import Mathlib

/-!
# GreenWave: verification of the signal-synchronized navigation engine

A shallow embedding of the core of the GreenWave repository: the data model
(src/types.ts), the geo math (src/services/locationService.ts), the recording
state machine (src/components/SignalRecorder.tsx), the phase predictor and
speed advisor (src/components/Navigator.tsx), and the route store
(the storage part of src/services/locationService.ts).

Timestamps are modelled in milliseconds as rationals (exact arithmetic over
the JavaScript number operations the code performs); durations in seconds are
obtained, as in the code, by dividing millisecond differences by 1000.
Geographic coordinates are real numbers, since the haversine distance uses
trigonometric functions.
-/

namespace GreenWave

/-- Signal phase, from the `SignalPhase` enum of src/types.ts. -/
inductive SignalPhase where
  | GREEN | YELLOW | RED
deriving DecidableEq, Repr

/-- Geographic coordinate, from the `Coordinate` interface of src/types.ts. -/
structure Coordinate where
  latitude : ℝ
  longitude : ℝ

/-- Signal cycle durations in seconds, from `SignalCycle` of src/types.ts. -/
structure SignalCycle where
  greenDuration : ℚ
  yellowDuration : ℚ
  redDuration : ℚ
  totalDuration : ℚ
deriving DecidableEq, Repr

/-- A recorded signal, from `Signal` of src/types.ts. The nondeterministic
identity fields (`id`, a random UUID, and `createdAt`, a wall-clock read) are
omitted; `name` keeps the running index from which the display name
`Signal #n` is built. -/
structure Signal where
  name : ℕ
  location : Coordinate
  cycle : SignalCycle
  referenceTimestamp : ℚ

/-- A recorded route, from `Route` of src/types.ts (the optional start and end
locations, derived from the path, are omitted; no claim mentions them). -/
structure Route where
  id : String
  name : String
  path : List Coordinate
  signals : List Signal
  createdAt : ℚ

/-- The construction invariant the spec states for `SignalCycle`: each
duration strictly positive and the total equal to their sum. -/
def ValidCycle (c : SignalCycle) : Prop :=
  0 < c.greenDuration ∧ 0 < c.yellowDuration ∧ 0 < c.redDuration ∧
    c.totalDuration = c.greenDuration + c.yellowDuration + c.redDuration

instance (c : SignalCycle) : Decidable (ValidCycle c) := by
  unfold ValidCycle; infer_instance

/-- Truncation toward zero of a rational, as JavaScript truncates the
quotient when evaluating the `%` operator. -/
def ratTrunc (x : ℚ) : ℤ :=
  if 0 ≤ x then ⌊x⌋ else ⌈x⌉

/-- The JavaScript remainder operator `a % b`: the sign of the result follows
the dividend, `a % b = a - b * trunc (a / b)`. -/
def jsMod (a b : ℚ) : ℚ :=
  a - b * ratTrunc (a / b)

/-! ## Phase predictor (src/components/Navigator.tsx, updateNavigationLogic)

The phase block of `updateNavigationLogic`:
```
const cycleTime = (now - nearestSignal.referenceTimestamp) / 1000;
const cyclePos = cycleTime % nearestSignal.cycle.totalDuration;
if (cyclePos < greenDuration) ... else if (cyclePos < greenDuration + yellowDuration) ... else ...
```
-/

/-- Result of the phase computation: current phase, seconds until the next
transition, and the next phase. -/
structure PhaseResult where
  currentPhase : SignalPhase
  timeToChange : ℚ
  nextPhase : SignalPhase
deriving DecidableEq, Repr

/-- The wrapped cycle position `cyclePos` of `updateNavigationLogic`:
elapsed milliseconds since the reference timestamp, divided by 1000,
reduced by the JavaScript remainder modulo the total duration. -/
def cyclePos (sig : Signal) (nowMs : ℚ) : ℚ :=
  jsMod ((nowMs - sig.referenceTimestamp) / 1000) sig.cycle.totalDuration

/-- The phase branch of `updateNavigationLogic` (Navigator.tsx lines 100-122). -/
def phasePredict (sig : Signal) (nowMs : ℚ) : PhaseResult :=
  let pos := cyclePos sig nowMs
  if pos < sig.cycle.greenDuration then
    ⟨SignalPhase.GREEN, sig.cycle.greenDuration - pos, SignalPhase.YELLOW⟩
  else if pos < sig.cycle.greenDuration + sig.cycle.yellowDuration then
    ⟨SignalPhase.YELLOW, (sig.cycle.greenDuration + sig.cycle.yellowDuration) - pos,
      SignalPhase.RED⟩
  else
    ⟨SignalPhase.RED, sig.cycle.totalDuration - pos, SignalPhase.GREEN⟩

/-! ## Speed advisor (src/components/Navigator.tsx, recommendation block) -/

/-- Recommended action, from `NavigationState.recommendedAction` in
src/types.ts. -/
inductive RecAction where
  | MAINTAIN | ACCELERATE | DECELERATE | STOP
deriving DecidableEq, Repr

/-- The ETA of `updateNavigationLogic`:
`speedMps > 0 ? dist / speedMps : 999` (seconds; 999 is the sentinel for a
vehicle that is not moving). -/
def computeEta (dist speedMps : ℚ) : ℚ :=
  if 0 < speedMps then dist / speedMps else 999

/-- The recommendation block of `updateNavigationLogic` (Navigator.tsx lines
124-149): given distance to the nearest signal in meters, the ETA, and the
predicted phase, produce the action and the optional target speed. The code
stores the target speed in km/h (`idealSpeedMps * 3.6`); 3.6 is `18/5`. -/
def recommend (dist eta : ℚ) (currentPhase : SignalPhase) (timeToChange : ℚ) :
    RecAction × Option ℚ :=
  if dist < 20 then
    (if currentPhase = SignalPhase.RED then RecAction.STOP else RecAction.MAINTAIN, none)
  else if currentPhase = SignalPhase.GREEN then
    (if eta < timeToChange then RecAction.MAINTAIN else RecAction.DECELERATE, none)
  else if currentPhase = SignalPhase.RED then
    if eta < timeToChange then
      (RecAction.DECELERATE, some (dist / timeToChange * (18 / 5)))
    else
      (RecAction.MAINTAIN, none)
  else
    (RecAction.MAINTAIN, none)

/-- One navigation tick of the advisor, combining the ETA computation and the
recommendation, as `updateNavigationLogic` does after picking the nearest
signal: `speedMps` is the smoothed speed in m/s. -/
def adviseTick (dist speedMps : ℚ) (pr : PhaseResult) : RecAction × Option ℚ :=
  recommend dist (computeEta dist speedMps) pr.currentPhase pr.timeToChange

/-! ## Cycle recorder (src/components/SignalRecorder.tsx)

The state machine over `signalPhase`, `cycleData` and `recordedSignals`,
driven by `handleSignalPress`, `handleSignalRelease` and the yellow-timer
callback scheduled inside `handleSignalRelease`. The timer is modelled as an
explicit event carrying its firing time, since its callback reads
`Date.now()` when it runs. -/

/-- Recorder signal phase, from the `SignalPhase` union type of
SignalRecorder.tsx. -/
inductive RecPhase where
  | WAITING_GREEN | GREEN | YELLOW | RED
deriving DecidableEq, Repr

/-- UI phase of the recorder screen, from the `Phase` union type of
SignalRecorder.tsx. -/
inductive UIPhase where
  | INIT_ROUTE | DRIVING | RECORDING_SIGNAL | SAVING
deriving DecidableEq, Repr

/-- The `cycleData` record of SignalRecorder.tsx (millisecond timestamps). -/
structure CycleData where
  greenStart : ℚ
  greenEnd : ℚ
  redStart : ℚ
deriving DecidableEq, Repr

/-- The mutable recorder state: `uiPhase`, `signalPhase`, `cycleData`,
`recordedSignals` and the configured `yellowDuration` (seconds). -/
structure RecorderState where
  uiPhase : UIPhase
  signalPhase : RecPhase
  cycleData : CycleData
  recordedSignals : List Signal
  yellowDuration : ℚ

/-- `handleSignalPress` of SignalRecorder.tsx (lines 65-93): in
`WAITING_GREEN` start the green phase; in `RED` complete the cycle, build the
`Signal` at the current location and append it; otherwise do nothing. -/
def handleSignalPress (nowMs : ℚ) (loc : Coordinate) (s : RecorderState) :
    RecorderState :=
  if s.signalPhase = RecPhase.WAITING_GREEN then
    { s with signalPhase := RecPhase.GREEN,
             cycleData := { s.cycleData with greenStart := nowMs } }
  else if s.signalPhase = RecPhase.RED then
    let redDuration := (nowMs - s.cycleData.redStart) / 1000
    let greenDuration := (s.cycleData.greenEnd - s.cycleData.greenStart) / 1000
    let newSignal : Signal :=
      { name := s.recordedSignals.length + 1,
        location := loc,
        cycle :=
          { greenDuration := greenDuration,
            yellowDuration := s.yellowDuration,
            redDuration := redDuration,
            totalDuration := greenDuration + s.yellowDuration + redDuration },
        referenceTimestamp := s.cycleData.greenStart }
    { s with recordedSignals := s.recordedSignals ++ [newSignal],
             uiPhase := UIPhase.DRIVING,
             signalPhase := RecPhase.WAITING_GREEN }
  else
    s

/-- `handleSignalRelease` of SignalRecorder.tsx (lines 95-107): only in
`GREEN` does it act, moving to `YELLOW`, recording `greenEnd` and scheduling
the yellow timer; in every other state it does nothing. -/
def handleSignalRelease (nowMs : ℚ) (s : RecorderState) : RecorderState :=
  if s.signalPhase = RecPhase.GREEN then
    { s with signalPhase := RecPhase.YELLOW,
             cycleData := { s.cycleData with greenEnd := nowMs } }
  else
    s

/-- The yellow-timer callback scheduled by `handleSignalRelease`: it sets the
phase to `RED` and records `redStart = Date.now()` at firing time. -/
def handleYellowTimer (nowMs : ℚ) (s : RecorderState) : RecorderState :=
  { s with signalPhase := RecPhase.RED,
           cycleData := { s.cycleData with redStart := nowMs } }

/-- A discrete recorder event: a press or release gesture, or the yellow
timer firing, each carrying the wall-clock time in milliseconds (presses also
carry the current vehicle position, read from `userLocation`). -/
inductive RecEvent where
  | press (nowMs : ℚ) (loc : Coordinate)
  | release (nowMs : ℚ)
  | timerFire (nowMs : ℚ)

/-- Apply one recorder event to the state. -/
def applyEvent (s : RecorderState) (e : RecEvent) : RecorderState :=
  match e with
  | RecEvent.press nowMs loc => handleSignalPress nowMs loc s
  | RecEvent.release nowMs => handleSignalRelease nowMs s
  | RecEvent.timerFire nowMs => handleYellowTimer nowMs s

/-- Apply a sequence of recorder events in order. -/
def runEvents (s : RecorderState) (es : List RecEvent) : RecorderState :=
  List.foldl applyEvent s es

/-- The recorder state at the start of a signal recording: `signalPhase`
initialised to `WAITING_GREEN` and `cycleData` to zeros, as the `useState`
initialisers of SignalRecorder.tsx do. -/
def initRecorder (yellow : ℚ) : RecorderState :=
  { uiPhase := UIPhase.RECORDING_SIGNAL,
    signalPhase := RecPhase.WAITING_GREEN,
    cycleData := { greenStart := 0, greenEnd := 0, redStart := 0 },
    recordedSignals := [],
    yellowDuration := yellow }

/-! ## Geo math (src/services/locationService.ts)

The haversine distance. JavaScript floating point numbers are embedded as
real numbers; `Math.atan2` is embedded by cases on the sign of its second
argument, matching its mathematical definition on the reals. -/

/-- The `Math.atan2(y, x)` function on the reals: the angle of the point
`(x, y)`, in `(-pi, pi]`, with `atan2 0 0 = 0`. -/
noncomputable def atan2 (y x : ℝ) : ℝ :=
  if 0 < x then Real.arctan (y / x)
  else if x < 0 then
    (if 0 ≤ y then Real.arctan (y / x) + Real.pi else Real.arctan (y / x) - Real.pi)
  else
    (if 0 < y then Real.pi / 2 else if y < 0 then -(Real.pi / 2) else 0)

/-- Earth radius in meters (`const R = 6371e3` in locationService.ts). -/
def earthRadius : ℝ := 6371000

/-- The intermediate value `a` of `calculateDistance`:
`sin(dLat/2)^2 + cos(lat1) cos(lat2) sin(dLon/2)^2` with all angles converted
from degrees to radians as in the code. -/
noncomputable def havA (coord1 coord2 : Coordinate) : ℝ :=
  let lat1 := coord1.latitude * Real.pi / 180
  let lat2 := coord2.latitude * Real.pi / 180
  let deltaLat := (coord2.latitude - coord1.latitude) * Real.pi / 180
  let deltaLon := (coord2.longitude - coord1.longitude) * Real.pi / 180
  Real.sin (deltaLat / 2) * Real.sin (deltaLat / 2) +
    Real.cos lat1 * Real.cos lat2 * Real.sin (deltaLon / 2) * Real.sin (deltaLon / 2)

/-- `calculateDistance` of locationService.ts (lines 6-19): the haversine
great-circle distance in meters,
`R * 2 * atan2(sqrt(a), sqrt(1 - a))`. -/
noncomputable def calculateDistance (coord1 coord2 : Coordinate) : ℝ :=
  let a := havA coord1 coord2
  let c := 2 * atan2 (Real.sqrt a) (Real.sqrt (1 - a))
  earthRadius * c

/-- `calculateSmoothedSpeed` of locationService.ts (lines 22-26): arithmetic
mean of the speed history, 0 for an empty history. -/
def calculateSmoothedSpeed (speedHistory : List ℚ) : ℚ :=
  if speedHistory.length = 0 then 0
  else (List.foldl (· + ·) 0 speedHistory) / speedHistory.length

/-! ## Route store (the storage part of src/services/locationService.ts)

The persisted route list behind the `greenwave_routes` key, modelled as the
list of routes it holds. `saveRoute` finds the first stored route with the
same id and overwrites that slot (`routes[index] = route`), otherwise pushes
at the end; `deleteRoute` filters by id; `getRoutes` returns the list. -/

/-- `saveRoute` (locationService.ts lines 56-68), acting on the decoded
route list: replace the first entry whose id matches (`findIndex` +
`routes[index] = route`), or push at the end. -/
def saveRoute (route : Route) : List Route → List Route
  | [] => [route]
  | r :: rs =>
    if r.id = route.id then route :: rs else r :: saveRoute route rs

/-- `getRoutes` (locationService.ts lines 70-73): the decoded stored list. -/
def getRoutes (routes : List Route) : List Route := routes

/-- `getRouteById` (locationService.ts lines 75-78). -/
def getRouteById (id : String) (routes : List Route) : Option Route :=
  (getRoutes routes).find? (fun r => r.id = id)

/-- `deleteRoute` (locationService.ts lines 80-84): keep exactly the routes
whose id differs. -/
def deleteRoute (id : String) (routes : List Route) : List Route :=
  routes.filter (fun r => ¬ r.id = id)

/-- A store operation: one `saveRoute` or one `deleteRoute` call. -/
inductive StoreOp where
  | save (r : Route)
  | del (id : String)

/-- Apply one store operation to the stored list. -/
def applyOp (routes : List Route) (op : StoreOp) : List Route :=
  match op with
  | StoreOp.save r => saveRoute r routes
  | StoreOp.del id => deleteRoute id routes

/-- The stored list after a sequence of save/delete calls on an initially
empty store. -/
def runOps (ops : List StoreOp) : List Route :=
  List.foldl applyOp [] ops

/-- The store invariant: at most one route per id. -/
def UniqueIds (routes : List Route) : Prop :=
  (routes.map Route.id).Nodup

/-! ## Concrete fixtures used by the scenario conjuncts below -/

/-- A fixed location for concrete scenarios. -/
noncomputable def origin : Coordinate := { latitude := 0, longitude := 0 }

/-- A signal with the cycle of the spec scenario (green 30 s, yellow 3 s,
red 27 s, total 60 s) anchored at millisecond timestamp `T`. -/
noncomputable def scenarioSig (T : ℚ) : Signal :=
  { name := 1, location := origin,
    cycle := { greenDuration := 30, yellowDuration := 3, redDuration := 27,
               totalDuration := 60 },
    referenceTimestamp := T }

/-- A recorder state captured mid-cycle in `RED`: green ran from 0 ms to
28000 ms, the yellow timer fired at 31000 ms, yellow configured to 3 s. -/
noncomputable def midRedState : RecorderState :=
  { uiPhase := UIPhase.RECORDING_SIGNAL,
    signalPhase := RecPhase.RED,
    cycleData := { greenStart := 0, greenEnd := 28000, redStart := 31000 },
    recordedSignals := [],
    yellowDuration := 3 }

/-- A stored route with id `a`. -/
def routeA : Route := { id := "a", name := "first", path := [], signals := [], createdAt := 0 }

/-- Another route with the same id `a` (an updated version of `routeA`). -/
def routeA2 : Route := { id := "a", name := "second", path := [], signals := [], createdAt := 1 }

/-- A route with the fresh id `b`. -/
def routeB : Route := { id := "b", name := "third", path := [], signals := [], createdAt := 2 }

end GreenWave

namespace GreenWave

/-! ## Helper lemmas -/

/-- On a nonnegative dividend and positive divisor, the JavaScript remainder
equals the divisor times the fractional part of the quotient. -/
theorem jsMod_eq_mul_fract (a b : ℚ) (hb : 0 < b) (ha : 0 ≤ a) :
    jsMod a b = b * Int.fract (a / b) := by
  have hq : 0 ≤ a / b := div_nonneg ha hb.le
  unfold jsMod ratTrunc
  rw [if_pos hq, Int.fract]
  have hb0 : b ≠ 0 := ne_of_gt hb
  field_simp

/-- The JavaScript remainder of a nonnegative dividend by a positive divisor
lies in `[0, b)`. -/
theorem jsMod_bounds (a b : ℚ) (hb : 0 < b) (ha : 0 ≤ a) :
    0 ≤ jsMod a b ∧ jsMod a b < b := by
  rw [jsMod_eq_mul_fract a b hb ha]
  constructor
  · exact mul_nonneg hb.le (Int.fract_nonneg _)
  · have h1 : b * Int.fract (a / b) < b * 1 :=
      mul_lt_mul_of_pos_left (Int.fract_lt_one _) hb
    simpa using h1

/-- Sine of a negated argument, stated through an equation on the angles. -/
theorem sin_neg_arg (x y : ℝ) (h : x = -y) : Real.sin x = -Real.sin y := by
  rw [h, Real.sin_neg]

/-- The haversine intermediate value is symmetric in its two coordinates. -/
theorem havA_comm (a b : Coordinate) : havA a b = havA b a := by
  simp only [havA]
  rw [sin_neg_arg ((a.latitude - b.latitude) * Real.pi / 180 / 2)
        ((b.latitude - a.latitude) * Real.pi / 180 / 2) (by ring),
      sin_neg_arg ((a.longitude - b.longitude) * Real.pi / 180 / 2)
        ((b.longitude - a.longitude) * Real.pi / 180 / 2) (by ring)]
  ring

/-- The haversine intermediate value vanishes on equal coordinates. -/
theorem havA_self (a : Coordinate) : havA a a = 0 := by
  simp [havA]

/-! ## Claim theorems -/

/-- C1 (amended): for every Signal with a valid cycle and every wall-clock
time at or after the referenceTimestamp, the phase computation of a
navigation tick wraps the elapsed time into `[0, totalDuration)` and produces
a timeToPhaseChange strictly greater than 0 and at most totalDuration, with
the current phase exactly one of GREEN, YELLOW, RED. (As originally stated —
for every now, including times earlier than the referenceTimestamp — the
claim fails: the JavaScript remainder keeps the sign of its dividend, so a
negative elapsed time is not wrapped into the cycle; see the
counterexample.) -/
theorem C1_phase_tick_bounds (sig : Signal) (nowMs : ℚ) (hv : ValidCycle sig.cycle)
    (hnow : sig.referenceTimestamp ≤ nowMs) :
    0 ≤ cyclePos sig nowMs ∧ cyclePos sig nowMs < sig.cycle.totalDuration ∧
    0 < (phasePredict sig nowMs).timeToChange ∧
    (phasePredict sig nowMs).timeToChange ≤ sig.cycle.totalDuration ∧
    ((phasePredict sig nowMs).currentPhase = SignalPhase.GREEN ∨
     (phasePredict sig nowMs).currentPhase = SignalPhase.YELLOW ∨
     (phasePredict sig nowMs).currentPhase = SignalPhase.RED) := by
  obtain ⟨hg, hy, hr, ht⟩ := hv
  have htot : 0 < sig.cycle.totalDuration := by rw [ht]; linarith
  have helapsed : 0 ≤ (nowMs - sig.referenceTimestamp) / 1000 := by
    apply div_nonneg (by linarith) (by norm_num)
  have hb := jsMod_bounds ((nowMs - sig.referenceTimestamp) / 1000)
    sig.cycle.totalDuration htot helapsed
  have hb' : 0 ≤ cyclePos sig nowMs ∧ cyclePos sig nowMs < sig.cycle.totalDuration := hb
  obtain ⟨hb0, hb1⟩ := hb'
  refine ⟨hb0, hb1, ?_⟩
  simp only [phasePredict]
  split_ifs with h1 h2 <;> dsimp only
  · exact ⟨by linarith, by linarith, Or.inl rfl⟩
  · exact ⟨by linarith, by linarith, Or.inr (Or.inl rfl)⟩
  · exact ⟨by linarith, by linarith, Or.inr (Or.inr rfl)⟩

/-- C1 witness: the amended theorem applied to the scenario signal at one
second past its reference timestamp. -/
theorem C1_phase_tick_bounds_witness :
    0 ≤ cyclePos (scenarioSig 0) 1000 ∧
    cyclePos (scenarioSig 0) 1000 < (scenarioSig 0).cycle.totalDuration ∧
    0 < (phasePredict (scenarioSig 0) 1000).timeToChange ∧
    (phasePredict (scenarioSig 0) 1000).timeToChange ≤ (scenarioSig 0).cycle.totalDuration ∧
    ((phasePredict (scenarioSig 0) 1000).currentPhase = SignalPhase.GREEN ∨
     (phasePredict (scenarioSig 0) 1000).currentPhase = SignalPhase.YELLOW ∨
     (phasePredict (scenarioSig 0) 1000).currentPhase = SignalPhase.RED) :=
  C1_phase_tick_bounds (scenarioSig 0) 1000
    (by refine ⟨?_, ?_, ?_, ?_⟩ <;> norm_num [scenarioSig])
    (by norm_num [scenarioSig])

/-- C1 counterexample: for the valid scenario cycle (30/3/27, total 60)
anchored at 0 and the wall-clock time 50 seconds before the anchor, the
wrapped cycle position is negative (not in `[0, totalDuration)`) and the
computed timeToPhaseChange is 80, which exceeds the totalDuration of 60. -/
theorem C1_counterexample :
    ValidCycle (scenarioSig 0).cycle ∧
    cyclePos (scenarioSig 0) (-50000) < 0 ∧
    (phasePredict (scenarioSig 0) (-50000)).timeToChange = 80 ∧
    (scenarioSig 0).cycle.totalDuration < (phasePredict (scenarioSig 0) (-50000)).timeToChange := by
  have hpos : cyclePos (scenarioSig 0) (-50000) = -50 := by
    norm_num [cyclePos, scenarioSig, jsMod, ratTrunc]
  have hpr : phasePredict (scenarioSig 0) (-50000) =
      ⟨SignalPhase.GREEN, 80, SignalPhase.YELLOW⟩ := by
    simp only [phasePredict]
    rw [hpos]
    norm_num [scenarioSig]
  refine ⟨⟨by norm_num [scenarioSig], by norm_num [scenarioSig], by norm_num [scenarioSig],
    by norm_num [scenarioSig]⟩, ?_, ?_, ?_⟩
  · rw [hpos]; norm_num
  · rw [hpr]
  · rw [hpr]; norm_num [scenarioSig]

/-- C3: for every Signal with a valid cycle and every time whose wrapped
cycle position is `e`, the tick reports GREEN with next phase YELLOW and
timeToChange `greenDuration - e` when `e < greenDuration`, YELLOW with next
phase RED and timeToChange `(greenDuration + yellowDuration) - e` when
`greenDuration ≤ e < greenDuration + yellowDuration`, and RED with next
phase GREEN and timeToChange `totalDuration - e` otherwise; in particular the
30/3/27 cycle anchored at T evaluates at T+0 s, T+30 s, T+33 s and T+60 s to
GREEN/30, YELLOW/3, RED/27 and, wrapping, GREEN/30. -/
theorem C3_phase_branches (sig : Signal) (nowMs e : ℚ) (T : ℚ)
    (_hv : ValidCycle sig.cycle) (he : e = cyclePos sig nowMs) :
    ((e < sig.cycle.greenDuration →
        phasePredict sig nowMs =
          ⟨SignalPhase.GREEN, sig.cycle.greenDuration - e, SignalPhase.YELLOW⟩) ∧
     (¬ e < sig.cycle.greenDuration →
        e < sig.cycle.greenDuration + sig.cycle.yellowDuration →
        phasePredict sig nowMs =
          ⟨SignalPhase.YELLOW, (sig.cycle.greenDuration + sig.cycle.yellowDuration) - e,
            SignalPhase.RED⟩) ∧
     (¬ e < sig.cycle.greenDuration →
        ¬ e < sig.cycle.greenDuration + sig.cycle.yellowDuration →
        phasePredict sig nowMs =
          ⟨SignalPhase.RED, sig.cycle.totalDuration - e, SignalPhase.GREEN⟩)) ∧
    (phasePredict (scenarioSig T) (T + 0) = ⟨SignalPhase.GREEN, 30, SignalPhase.YELLOW⟩ ∧
     phasePredict (scenarioSig T) (T + 30000) = ⟨SignalPhase.YELLOW, 3, SignalPhase.RED⟩ ∧
     phasePredict (scenarioSig T) (T + 33000) = ⟨SignalPhase.RED, 27, SignalPhase.GREEN⟩ ∧
     phasePredict (scenarioSig T) (T + 60000) = ⟨SignalPhase.GREEN, 30, SignalPhase.YELLOW⟩) := by
  constructor
  · subst he
    refine ⟨fun h1 => ?_, fun h1 h2 => ?_, fun h1 h2 => ?_⟩
    · simp only [phasePredict]; rw [if_pos h1]
    · simp only [phasePredict]; rw [if_neg h1, if_pos h2]
    · simp only [phasePredict]; rw [if_neg h1, if_neg h2]
  · have e0 : cyclePos (scenarioSig T) (T + 0) = 0 := by
      simp only [cyclePos, scenarioSig]
      rw [show T + 0 - T = 0 by ring]
      norm_num [jsMod, ratTrunc]
    have e30 : cyclePos (scenarioSig T) (T + 30000) = 30 := by
      simp only [cyclePos, scenarioSig]
      rw [show T + 30000 - T = 30000 by ring]
      norm_num [jsMod, ratTrunc]
    have e33 : cyclePos (scenarioSig T) (T + 33000) = 33 := by
      simp only [cyclePos, scenarioSig]
      rw [show T + 33000 - T = 33000 by ring]
      norm_num [jsMod, ratTrunc]
    have e60 : cyclePos (scenarioSig T) (T + 60000) = 0 := by
      simp only [cyclePos, scenarioSig]
      rw [show T + 60000 - T = 60000 by ring]
      norm_num [jsMod, ratTrunc]
    refine ⟨?_, ?_, ?_, ?_⟩
    · simp only [phasePredict]; rw [e0]; norm_num [scenarioSig]
    · simp only [phasePredict]; rw [e30]; norm_num [scenarioSig]
    · simp only [phasePredict]; rw [e33]; norm_num [scenarioSig]
    · simp only [phasePredict]; rw [e60]; norm_num [scenarioSig]

/-- C3 witness: the branch theorem applied to the scenario signal at its
anchor time, where the wrapped position 0 falls in the GREEN branch. -/
theorem C3_phase_branches_witness :
    phasePredict (scenarioSig 0) 0 =
      ⟨SignalPhase.GREEN, (scenarioSig 0).cycle.greenDuration - 0, SignalPhase.YELLOW⟩ :=
  (C3_phase_branches (scenarioSig 0) 0 0 0
    (by refine ⟨?_, ?_, ?_, ?_⟩ <;> norm_num [scenarioSig])
    (by norm_num [cyclePos, scenarioSig, jsMod, ratTrunc])).1.1
    (by norm_num [scenarioSig])

/-- C4: a press in state RED completes the cycle: the appended Signal has
greenDuration `(greenEnd - greenStart) / 1000` seconds, redDuration
`(now - redStart) / 1000` seconds, the configured yellowDuration,
totalDuration their sum, referenceTimestamp `greenStart`, the current vehicle
position as location, and the machine resets to WAITING_GREEN; in the spec
scenario (press at 0 s, release at 28 s, timer at 31 s, press at 58 s) the
one recorded Signal is 28/3/27, total 58, referencing timestamp 0. -/
theorem C4_red_press_completes (s : RecorderState) (nowMs : ℚ) (loc : Coordinate)
    (h : s.signalPhase = RecPhase.RED) :
    (handleSignalPress nowMs loc s =
      { s with
          recordedSignals := s.recordedSignals ++
            [{ name := s.recordedSignals.length + 1,
               location := loc,
               cycle :=
                 { greenDuration := (s.cycleData.greenEnd - s.cycleData.greenStart) / 1000,
                   yellowDuration := s.yellowDuration,
                   redDuration := (nowMs - s.cycleData.redStart) / 1000,
                   totalDuration := (s.cycleData.greenEnd - s.cycleData.greenStart) / 1000 +
                     s.yellowDuration + (nowMs - s.cycleData.redStart) / 1000 },
               referenceTimestamp := s.cycleData.greenStart }],
          uiPhase := UIPhase.DRIVING,
          signalPhase := RecPhase.WAITING_GREEN }) ∧
    ((runEvents (initRecorder 3)
        [RecEvent.press 0 origin, RecEvent.release 28000,
         RecEvent.timerFire 31000, RecEvent.press 58000 origin]).recordedSignals =
      [{ name := 1, location := origin,
         cycle := { greenDuration := 28, yellowDuration := 3, redDuration := 27,
                    totalDuration := 58 },
         referenceTimestamp := 0 }]) ∧
    (runEvents (initRecorder 3)
        [RecEvent.press 0 origin, RecEvent.release 28000,
         RecEvent.timerFire 31000, RecEvent.press 58000 origin]).signalPhase =
      RecPhase.WAITING_GREEN := by
  refine ⟨?_, ?_, ?_⟩
  · simp [handleSignalPress, h]
  · simp [runEvents, applyEvent, handleSignalPress, handleSignalRelease, handleYellowTimer,
      initRecorder]
    norm_num
  · simp [runEvents, applyEvent, handleSignalPress, handleSignalRelease, handleYellowTimer,
      initRecorder]

/-- C4 witness: the completion theorem applied to a concrete RED state (green
ran 0 to 28000 ms, yellow timer fired at 31000 ms) and a press at 58000 ms:
the produced signal has totalDuration 58 and the machine is reset. -/
theorem C4_red_press_completes_witness :
    (handleSignalPress 58000 origin midRedState).recordedSignals.map
      (fun sg => sg.cycle.totalDuration) = [58] ∧
    (handleSignalPress 58000 origin midRedState).signalPhase = RecPhase.WAITING_GREEN := by
  have h := C4_red_press_completes midRedState 58000 origin rfl
  rw [h.1]
  constructor
  · norm_num [midRedState]
  · rfl

/-- C2: the code does NOT reject an invalid SignalCycle at construction time.
Running the recorder on a press and a release in the same millisecond (a
noisy instantaneous tap), the timer at 3000 ms and the closing press at
30000 ms appends a Signal whose greenDuration is 0 — non-positive, violating
the stated invariant — instead of failing fast. -/
theorem C2_invalid_cycle_not_rejected :
    ((runEvents (initRecorder 3)
        [RecEvent.press 0 origin, RecEvent.release 0,
         RecEvent.timerFire 3000, RecEvent.press 30000 origin]).recordedSignals.map
      (fun sg => sg.cycle.greenDuration) = [0]) ∧
    ((runEvents (initRecorder 3)
        [RecEvent.press 0 origin, RecEvent.release 0,
         RecEvent.timerFire 3000, RecEvent.press 30000 origin]).recordedSignals.map
      (fun sg => decide (ValidCycle sg.cycle)) = [false]) := by
  constructor
  · simp [runEvents, applyEvent, handleSignalPress, handleSignalRelease, handleYellowTimer,
      initRecorder]
  · simp [runEvents, applyEvent, handleSignalPress, handleSignalRelease, handleYellowTimer,
      initRecorder, ValidCycle]

/-- C8: invalid gestures are no-ops that leave the whole recorder state (and
so the recorded cycle data) unchanged: a release in RED, WAITING_GREEN or
YELLOW changes nothing, and a press in GREEN or YELLOW changes nothing. -/
theorem C8_invalid_gesture_noop (s : RecorderState) (nowMs : ℚ) (loc : Coordinate) :
    ((s.signalPhase = RecPhase.RED ∨ s.signalPhase = RecPhase.WAITING_GREEN ∨
        s.signalPhase = RecPhase.YELLOW) →
      handleSignalRelease nowMs s = s) ∧
    ((s.signalPhase = RecPhase.GREEN ∨ s.signalPhase = RecPhase.YELLOW) →
      handleSignalPress nowMs loc s = s) := by
  constructor
  · rintro (h | h | h) <;> simp [handleSignalRelease, h]
  · rintro (h | h) <;> simp [handleSignalPress, h]

/-- C8 witness: a release in the concrete RED state is a no-op. -/
theorem C8_invalid_gesture_noop_witness :
    handleSignalRelease 40000 midRedState = midRedState :=
  (C8_invalid_gesture_noop midRedState 40000 origin).1 (Or.inl rfl)

/-- C5: in the arrival zone (distance under 20 m) the tick recommends STOP
when the current phase is RED and MAINTAIN otherwise, with no target speed,
for every speed (and hence every ETA). -/
theorem C5_arrival_zone (dist speedMps timeToChange : ℚ) (phase nextPhase : SignalPhase)
    (h : dist < 20) :
    adviseTick dist speedMps ⟨phase, timeToChange, nextPhase⟩ =
      (if phase = SignalPhase.RED then RecAction.STOP else RecAction.MAINTAIN, none) := by
  simp [adviseTick, recommend, h]

/-- C5 witness: at 15 m from a RED signal the advice is STOP with no target
speed, here with the vehicle doing 10 m/s. -/
theorem C5_arrival_zone_witness :
    adviseTick 15 10 ⟨SignalPhase.RED, 12, SignalPhase.GREEN⟩ =
      (if SignalPhase.RED = SignalPhase.RED then RecAction.STOP else RecAction.MAINTAIN,
        none) :=
  C5_arrival_zone 15 10 12 SignalPhase.RED SignalPhase.GREEN (by norm_num)

/-- C6: at 20 m or more from a RED signal, an ETA below the time to change
yields DECELERATE with the target speed `dist / timeToChange` — the speed
that arrives exactly at the green transition, stored in km/h through the
factor 3.6 = 18/5 — and otherwise MAINTAIN with no target speed. -/
theorem C6_red_approach (dist speedMps timeToChange : ℚ) (nextPhase : SignalPhase)
    (h : 20 ≤ dist) :
    (computeEta dist speedMps < timeToChange →
      adviseTick dist speedMps ⟨SignalPhase.RED, timeToChange, nextPhase⟩ =
        (RecAction.DECELERATE, some (dist / timeToChange * (18 / 5)))) ∧
    (¬ computeEta dist speedMps < timeToChange →
      adviseTick dist speedMps ⟨SignalPhase.RED, timeToChange, nextPhase⟩ =
        (RecAction.MAINTAIN, none)) := by
  have h20 : ¬ dist < 20 := not_lt.mpr h
  constructor <;> intro he <;> simp [adviseTick, recommend, h20, he]

/-- C6 witness: 200 m from a RED signal turning green in 40 s at 2 m/s
(ETA 100 s, after the change): MAINTAIN, no target speed. -/
theorem C6_red_approach_witness :
    adviseTick 200 2 ⟨SignalPhase.RED, 40, SignalPhase.GREEN⟩ =
      (RecAction.MAINTAIN, none) :=
  (C6_red_approach 200 2 40 SignalPhase.GREEN (by norm_num)).2
    (by norm_num [computeEta])

/-- C7: at 20 m or more, the ETA is `dist / speed` for a strictly positive
smoothed speed and the sentinel 999 s for a stationary vehicle; facing GREEN
the advice is MAINTAIN when the ETA beats the time to change and DECELERATE
otherwise — in particular a stationary vehicle facing GREEN with the change
due before the sentinel is advised DECELERATE. -/
theorem C7_eta_green (dist speedMps timeToChange : ℚ) (nextPhase : SignalPhase)
    (h : 20 ≤ dist) :
    (0 < speedMps → computeEta dist speedMps = dist / speedMps) ∧
    (speedMps = 0 → computeEta dist speedMps = 999) ∧
    (computeEta dist speedMps < timeToChange →
      adviseTick dist speedMps ⟨SignalPhase.GREEN, timeToChange, nextPhase⟩ =
        (RecAction.MAINTAIN, none)) ∧
    (¬ computeEta dist speedMps < timeToChange →
      adviseTick dist speedMps ⟨SignalPhase.GREEN, timeToChange, nextPhase⟩ =
        (RecAction.DECELERATE, none)) ∧
    (speedMps = 0 → timeToChange < 999 →
      adviseTick dist speedMps ⟨SignalPhase.GREEN, timeToChange, nextPhase⟩ =
        (RecAction.DECELERATE, none)) := by
  have h20 : ¬ dist < 20 := not_lt.mpr h
  refine ⟨fun hs => ?_, fun hs => ?_, fun he => ?_, fun he => ?_, fun hs ht => ?_⟩
  · simp [computeEta, hs]
  · simp [computeEta, hs]
  · simp [adviseTick, recommend, h20, he]
  · simp [adviseTick, recommend, h20, he]
  · have he : ¬ computeEta dist speedMps < timeToChange := by
      simp [computeEta, hs]
      linarith
    simp [adviseTick, recommend, h20, he]

/-- C7 witness: the spec scenario — 200 m away at 15 m/s (ETA 13.33 s) facing
GREEN with 10 s to the change: ETA exceeds the window, so DECELERATE. -/
theorem C7_eta_green_witness :
    adviseTick 200 15 ⟨SignalPhase.GREEN, 10, SignalPhase.YELLOW⟩ =
      (RecAction.DECELERATE, none) :=
  (C7_eta_green 200 15 10 SignalPhase.YELLOW (by norm_num)).2.2.2.1
    (by norm_num [computeEta])

/-- C9: the haversine great-circle distance is symmetric and vanishes on
equal coordinates. -/
theorem C9_distance_symm_zero :
    (∀ a b : Coordinate, calculateDistance a b = calculateDistance b a) ∧
    (∀ a : Coordinate, calculateDistance a a = 0) := by
  constructor
  · intro a b
    simp only [calculateDistance]
    rw [havA_comm]
  · intro a
    simp only [calculateDistance, havA_self]
    rw [Real.sqrt_zero, show (1:ℝ) - 0 = 1 by ring, Real.sqrt_one]
    simp [atan2, Real.arctan_zero]

/-! Helper lemmas for the route store invariant. -/

/-- Replacing in place: when no earlier entry matches and `x` is the stored
route with the id of `route`, `saveRoute` overwrites exactly that slot. -/
theorem saveRoute_replace (route : Route) (l1 l2 : List Route) (x : Route)
    (h1 : ∀ y ∈ l1, y.id ≠ route.id) (hx : x.id = route.id) :
    saveRoute route (l1 ++ x :: l2) = l1 ++ route :: l2 := by
  induction l1 with
  | nil => simp [saveRoute, hx]
  | cons y ys ih =>
    have hy : y.id ≠ route.id := h1 y (List.mem_cons_self y ys)
    simp only [List.cons_append, saveRoute, if_neg hy, List.append_eq]
    rw [ih (fun z hz => h1 z (List.mem_cons_of_mem y hz))]

/-- When the id is already stored, `saveRoute` keeps the list length. -/
theorem saveRoute_length_of_mem (route : Route) (l : List Route)
    (h : route.id ∈ l.map Route.id) :
    (saveRoute route l).length = l.length := by
  induction l with
  | nil => simp at h
  | cons y ys ih =>
    by_cases hy : y.id = route.id
    · simp [saveRoute, hy]
    · have h2 : route.id ∈ ys.map Route.id := by
        rcases List.mem_map.mp h with ⟨z, hz, hzid⟩
        rcases List.mem_cons.mp hz with hz1 | hz2
        · exact absurd (hz1 ▸ hzid) hy
        · exact List.mem_map.mpr ⟨z, hz2, hzid⟩
      simp [saveRoute, hy, ih h2]

/-- When the id is new, `saveRoute` appends exactly one entry at the end. -/
theorem saveRoute_append_of_fresh (route : Route) (l : List Route)
    (h : ∀ x ∈ l, x.id ≠ route.id) :
    saveRoute route l = l ++ [route] := by
  induction l with
  | nil => simp [saveRoute]
  | cons y ys ih =>
    have hy : y.id ≠ route.id := h y (List.mem_cons_self y ys)
    simp only [saveRoute, if_neg hy, List.cons_append]
    rw [ih (fun z hz => h z (List.mem_cons_of_mem y hz))]

/-- Every id in the output of `saveRoute` is the new id or an old one. -/
theorem saveRoute_ids_subset (route : Route) (l : List Route) (z : String)
    (h : z ∈ (saveRoute route l).map Route.id) :
    z = route.id ∨ z ∈ l.map Route.id := by
  induction l with
  | nil => simp [saveRoute] at h; exact Or.inl h
  | cons y ys ih =>
    by_cases hy : y.id = route.id
    · simp only [saveRoute, if_pos hy, List.map_cons, List.mem_cons] at h
      rcases h with h | h
      · exact Or.inl h
      · exact Or.inr (List.mem_cons_of_mem _ h)
    · simp only [saveRoute, if_neg hy, List.map_cons, List.mem_cons] at h
      rcases h with h | h
      · exact Or.inr (by simp [h])
      · rcases ih h with h2 | h2
        · exact Or.inl h2
        · exact Or.inr (List.mem_cons_of_mem _ h2)

/-- `saveRoute` preserves uniqueness of stored ids. -/
theorem saveRoute_uniqueIds (route : Route) (l : List Route)
    (h : UniqueIds l) : UniqueIds (saveRoute route l) := by
  induction l with
  | nil => simp [saveRoute, UniqueIds]
  | cons y ys ih =>
    rw [UniqueIds, List.map_cons, List.nodup_cons] at h
    obtain ⟨hy, hys⟩ := h
    by_cases hcase : y.id = route.id
    · rw [UniqueIds]
      simp only [saveRoute, if_pos hcase, List.map_cons, List.nodup_cons]
      exact ⟨fun hmem => hy (hcase ▸ hmem), hys⟩
    · rw [UniqueIds]
      simp only [saveRoute, if_neg hcase, List.map_cons, List.nodup_cons]
      refine ⟨fun hmem => ?_, ih hys⟩
      rcases saveRoute_ids_subset route ys y.id hmem with h2 | h2
      · exact hcase h2
      · exact hy h2

/-- `deleteRoute` preserves uniqueness of stored ids. -/
theorem deleteRoute_uniqueIds (id : String) (l : List Route)
    (h : UniqueIds l) : UniqueIds (deleteRoute id l) := by
  rw [UniqueIds]
  exact List.Nodup.sublist (List.Sublist.map Route.id (List.filter_sublist l)) h

/-- Any fold of store operations preserves uniqueness of stored ids. -/
theorem foldOps_uniqueIds (ops : List StoreOp) (l : List Route)
    (h : UniqueIds l) : UniqueIds (List.foldl applyOp l ops) := by
  induction ops generalizing l with
  | nil => exact h
  | cons op rest ih =>
    cases op with
    | save r => exact ih _ (saveRoute_uniqueIds r l h)
    | del i => exact ih _ (deleteRoute_uniqueIds i l h)

/-- C10: the persisted route list holds at most one route per id. On a store
unique in ids, `saveRoute` with a stored id overwrites that entry in place
(same length), `saveRoute` with a fresh id appends exactly one entry,
`deleteRoute` removes every route carrying the id, and any sequence of
save/delete calls from the empty store leaves `getRoutes` unique in ids. -/
theorem C10_store_unique (route x : Route) (l1 l2 l : List Route) (i : String)
    (ops : List StoreOp) :
    ((∀ y ∈ l1, y.id ≠ route.id) → x.id = route.id →
      saveRoute route (l1 ++ x :: l2) = l1 ++ route :: l2) ∧
    (UniqueIds l → route.id ∈ l.map Route.id →
      (saveRoute route l).length = l.length) ∧
    ((∀ y ∈ l, y.id ≠ route.id) → saveRoute route l = l ++ [route]) ∧
    (∀ y ∈ deleteRoute i l, y.id ≠ i) ∧
    UniqueIds (getRoutes (runOps ops)) := by
  refine ⟨saveRoute_replace route l1 l2 x, fun _ => saveRoute_length_of_mem route l,
    saveRoute_append_of_fresh route l, fun y hy => ?_, ?_⟩
  · have h2 := List.of_mem_filter hy
    simpa using h2
  · exact foldOps_uniqueIds ops [] (by simp [UniqueIds])

/-- C10 witness: on the singleton store holding `routeA`, saving `routeA2`
(same id) overwrites in place, saving `routeB` (fresh id) appends, deleted
entries are gone, and a concrete operation sequence keeps ids unique. -/
theorem C10_store_unique_witness :
    saveRoute routeA2 ([] ++ routeA :: []) = [] ++ routeA2 :: [] ∧
    (saveRoute routeA2 [routeA]).length = [routeA].length ∧
    saveRoute routeB [routeA] = [routeA] ++ [routeB] ∧
    UniqueIds (getRoutes (runOps [StoreOp.save routeA, StoreOp.save routeA2,
      StoreOp.save routeB, StoreOp.del "a"])) := by
  have h1 := (C10_store_unique routeA2 routeA [] [] [routeA] "a" []).1
    (by simp) rfl
  have h2 := (C10_store_unique routeA2 routeA [] [] [routeA] "a" []).2.1
    (by simp [UniqueIds]) (by simp [routeA, routeA2])
  have h3 := (C10_store_unique routeB routeA [] [] [routeA] "a" []).2.2.1
    (by simp [routeA, routeB])
  have h4 := (C10_store_unique routeA routeA [] [] [] "a"
    [StoreOp.save routeA, StoreOp.save routeA2, StoreOp.save routeB, StoreOp.del "a"]).2.2.2.2
  exact ⟨h1, h2, h3, h4⟩

end GreenWave
